import Mathlib

/-!
Shallow embedding of `src/packages/main/src/mainWindow.ts` (the window
lifecycle controller of the application): window construction options,
content-source selection, the close / before-quit handlers, the
activate (restoreOrCreateWindow) operation, and the IPC relays
(`container-stopped-event`, `dialog:openFile`, `dialog:openFolder`).

The host GUI toolkit (Electron) is modelled by an explicit window record
and an event step function; machine-level concerns (rendering, real
timers) are outside the embedding.
-/

namespace MainWindow

/-- Operating-system platform, as distinguished by the `isMac` / `isLinux`
flags imported from `./util`. -/
inductive Platform
  | mac
  | linux
  | windows
  deriving DecidableEq, Repr

/-- The `isMac` flag from `./util`. -/
def isMac : Platform → Bool
  | .mac => true
  | _ => false

/-- The `isLinux` flag from `./util`. -/
def isLinux : Platform → Bool
  | .linux => true
  | _ => false

/-- Electron `titleBarStyle` values used by this file. -/
inductive TitleBarStyle
  | default
  | hidden
  | hiddenInset
  deriving DecidableEq, Repr

/-- The `webPreferences` block of the constructor options. -/
structure WebPreferences where
  webSecurity : Bool
  nativeWindowOpen : Bool
  webviewTag : Bool
  preload : String
  deriving DecidableEq, Repr

/-- The subset of `BrowserWindowConstructorOptions` this file touches.
`showOnCreate` models the `show` option (Electron default `true`);
`frame` defaults to `true` in Electron. -/
structure BrowserWindowConstructorOptions where
  showOnCreate : Bool := true
  width : Nat := 800
  height : Nat := 600
  minWidth : Nat := 0
  minHeight : Nat := 0
  titleBarStyle : TitleBarStyle := .default
  frame : Bool := true
  webPreferences : WebPreferences
  deriving DecidableEq, Repr

/-- Model of `join(__dirname, rel)` from `path`. -/
def pathJoin (dirname rel : String) : String :=
  dirname ++ "/" ++ rel

/-- The options literal built at the top of `createWindow`, before the two
platform-conditional blocks run. -/
def initialOptions (dirname : String) : BrowserWindowConstructorOptions :=
  { showOnCreate := false
    width := 1050
    minWidth := 640
    minHeight := 600
    height := 600
    webPreferences :=
      { webSecurity := false
        nativeWindowOpen := true
        webviewTag := false
        preload := pathJoin dirname "../../preload/dist/index.cjs" } }

/-- The options after the `if (isMac)` block (`titleBarStyle = 'hiddenInset'`
on the Mac platform). -/
def optionsAfterMacBranch (dirname : String) (p : Platform) :
    BrowserWindowConstructorOptions :=
  if isMac p then
    { initialOptions dirname with titleBarStyle := .hiddenInset }
  else
    initialOptions dirname

/-- The final options handed to `new BrowserWindow`: the `if (true)` block
(the always-true wayland condition) sets `titleBarStyle = 'hidden'` and, when
not on Mac, `frame = false`. -/
def browserWindowConstructorOptions (dirname : String) (p : Platform) :
    BrowserWindowConstructorOptions :=
  if true then
    let opts := { optionsAfterMacBranch dirname p with titleBarStyle := .hidden }
    if !(isMac p) then { opts with frame := false } else opts
  else
    optionsAfterMacBranch dirname p

/-- Resolve URL path segments: `..` drops the last accumulated segment,
`.` is skipped, anything else is appended. -/
def resolveSegs (acc : List String) : List String → List String
  | [] => acc
  | ".." :: rest => resolveSegs acc.dropLast rest
  | "." :: rest => resolveSegs acc rest
  | seg :: rest => resolveSegs (acc ++ [seg]) rest

/-- Model of `new URL(rel, base).toString()` for the relative file URLs used
here: the base's last path segment is dropped and `rel`'s segments are
resolved against the remainder. -/
def urlResolve (rel base : String) : String :=
  String.intercalate "/" (resolveSegs (base.splitOn "/").dropLast (rel.splitOn "/"))

/-- The fixed production content location:
`new URL('../renderer/dist/index.html', 'file://' + __dirname).toString()`. -/
def prodPageUrl (dirname : String) : String :=
  urlResolve "../renderer/dist/index.html" ("file://" ++ dirname)

/-- The `pageUrl` conditional of `createWindow`: the dev-server URL exactly
when `import.meta.env.DEV` is set and `VITE_DEV_SERVER_URL` is defined,
the production file URL otherwise. -/
def pageUrl (dev : Bool) (viteDevServerUrl : Option String) (dirname : String) : String :=
  match dev, viteDevServerUrl with
  | true, some u => u
  | _, _ => prodPageUrl dirname

/-- A `BrowserWindow` handle: identity plus the observable state the file
manipulates (destroyed / visible / minimized / focused flags). -/
structure Window where
  id : Nat
  destroyed : Bool
  visible : Bool
  minimized : Bool
  focused : Bool
  deriving DecidableEq, Repr

/-- `BrowserWindow.isDestroyed()`. -/
def Window.isDestroyed (w : Window) : Bool := w.destroyed

/-- `BrowserWindow.isMinimized()`. -/
def Window.isMinimized (w : Window) : Bool := w.minimized

/-- `BrowserWindow.isVisible()`. -/
def Window.isVisible (w : Window) : Bool := w.visible

/-- `BrowserWindow.restore()`: leave the minimized state. -/
def Window.restore (w : Window) : Window := { w with minimized := false }

/-- `BrowserWindow.show()`: make the window visible and focused. -/
def Window.showWin (w : Window) : Window := { w with visible := true, focused := true }

/-- `BrowserWindow.hide()`. -/
def Window.hide (w : Window) : Window := { w with visible := false, focused := false }

/-- `BrowserWindow.minimize()`. -/
def Window.minimize (w : Window) : Window := { w with minimized := true, focused := false }

/-- `BrowserWindow.focus()`. -/
def Window.focus (w : Window) : Window := { w with focused := true }

/-- `BrowserWindow.destroy()`. -/
def Window.destroy (w : Window) : Window := { w with destroyed := true }

/-- The window object produced by `new BrowserWindow(...)`: not destroyed and,
because the options set `show: false`, hidden, not minimized, not focused. -/
def newWindow (i : Nat) : Window :=
  { id := i, destroyed := false, visible := false, minimized := false, focused := false }

/-- Result of the `browserWindow.on('close')` handler: whether
`e.preventDefault()` was called, the window's new state, and the dock
visibility after the handler ran. -/
structure CloseResult where
  preventedDefault : Bool
  window : Window
  dockVisible : Bool
  deriving DecidableEq, Repr

/-- Body of the `close` handler: always `e.preventDefault()`; on Linux
minimize the window, otherwise hide it and, on Mac, also `app.dock.hide()`. -/
def handleClose (p : Platform) (w : Window) (dock : Bool) : CloseResult :=
  if isLinux p then
    { preventedDefault := true, window := w.minimize, dockVisible := dock }
  else
    let w2 := w.hide
    if isMac p then
      { preventedDefault := true, window := w2, dockVisible := false }
    else
      { preventedDefault := true, window := w2, dockVisible := dock }

/-- The tail of `restoreOrCreateWindow`: restore when minimized, show when not
visible, and focus, in that order. -/
def activateWindow (w : Window) : Window :=
  let w1 := if w.isMinimized then w.restore else w
  let w2 := if !w1.isVisible then w1.showWin else w1
  w2.focus

/-- Apply `activateWindow` to the first non-destroyed window of the list
(the window `BrowserWindow.getAllWindows().find(w => !w.isDestroyed())`
returns), leaving every other window untouched. -/
def activateFirst : List Window → List Window
  | [] => []
  | w :: ws => if !w.destroyed then activateWindow w :: ws else w :: activateFirst ws

/-- Apply the `close` handler to the first live window with the given id
(a `close` event is delivered to the one window it was fired on), threading
the dock visibility through. -/
def closeFirst (p : Platform) (wid : Nat) (dock : Bool) :
    List Window → List Window × Bool
  | [] => ([], dock)
  | w :: ws =>
    if w.id == wid && !w.destroyed then
      let r := handleClose p w dock
      (r.window :: ws, r.dockVisible)
    else
      let rest := closeFirst p wid dock ws
      (w :: rest.1, rest.2)

/-- The process state: all windows ever constructed, the fresh-id counter,
the window ids captured by the `ipcMain.on` listeners (`container-stopped-event`,
`dialog:openFile`, `dialog:openFolder` are registered together, once per
`createWindow` call, and never removed), the windows captured by the
accumulated `app.on('before-quit')` handlers, and the Mac dock visibility. -/
structure AppState where
  windows : List Window
  nextId : Nat
  ipcHandlers : List Nat
  quitHandlers : List Nat
  dockVisible : Bool
  deriving DecidableEq, Repr

/-- The state before any window exists. -/
def AppState.init : AppState :=
  { windows := [], nextId := 0, ipcHandlers := [], quitHandlers := [], dockVisible := true }

/-- `createWindow()`: construct a fresh hidden window and register its IPC
and before-quit listeners on the process-global emitters. -/
def createWindow (s : AppState) : AppState :=
  let w := newWindow s.nextId
  { s with
    windows := s.windows ++ [w]
    nextId := s.nextId + 1
    ipcHandlers := s.ipcHandlers ++ [w.id]
    quitHandlers := s.quitHandlers ++ [w.id] }

/-- `restoreOrCreateWindow()`: find a non-destroyed window, construct one when
none exists, then restore / show / focus it. -/
def restoreOrCreateWindow (s : AppState) : AppState :=
  match s.windows.find? (fun w => !w.destroyed) with
  | some _ => { s with windows := activateFirst s.windows }
  | none =>
    let s2 := createWindow s
    { s2 with windows := activateFirst s2.windows }

/-- The external events the controller reacts to. -/
inductive Event
  | activate
  | closeRequest (wid : Nat)
  | beforeQuit
  deriving DecidableEq, Repr

/-- One event step: `activate` runs `restoreOrCreateWindow`; a close request
runs the `close` handler of the targeted live window; `before-quit` runs every
accumulated quit handler, each destroying the window it captured. -/
def step (p : Platform) (s : AppState) : Event → AppState
  | .activate => restoreOrCreateWindow s
  | .closeRequest wid =>
    let r := closeFirst p wid s.dockVisible s.windows
    { s with windows := r.1, dockVisible := r.2 }
  | .beforeQuit =>
    { s with
      windows := s.windows.map (fun w => if s.quitHandlers.contains w.id then w.destroy else w) }

/-- Run an event trace from the initial state. -/
def run (p : Platform) (evs : List Event) : AppState :=
  evs.foldl (step p) AppState.init

/-- Number of non-destroyed windows. -/
def nonDestroyedCount (s : AppState) : Nat :=
  (s.windows.filter (fun w => !w.destroyed)).length

/-- The payload of a `dialog:openFile` / `dialog:openFolder` request. -/
structure DialogRequest where
  dialogId : String
  message : String
  deriving DecidableEq, Repr

/-- Electron's `OpenDialogReturnValue` (the fields the renderer consumes). -/
structure OpenDialogReturnValue where
  canceled : Bool
  filePaths : List String
  deriving DecidableEq, Repr

/-- A message sent to the window's `webContents`. -/
structure ResponseMessage where
  channel : String
  dialogId : String
  response : OpenDialogReturnValue
  deriving DecidableEq, Repr

/-- Body of the `dialog:openFile` / `dialog:openFolder` listeners: await the
native picker (`showOpenDialog`, an external collaborator, here a parameter)
and send one `dialog:open-file-or-folder-response` message tagged with the
request's own `dialogId`. -/
def handleOpenDialog (showOpenDialog : DialogRequest → OpenDialogReturnValue)
    (param : DialogRequest) : ResponseMessage :=
  { channel := "dialog:open-file-or-folder-response"
    dialogId := param.dialogId
    response := showOpenDialog param }

/-- The responses produced by a batch of in-flight dialog requests listed in
completion order: each request contributes exactly the one message its
listener sends. -/
def responsesFor (showOpenDialog : DialogRequest → OpenDialogReturnValue)
    (completed : List DialogRequest) : List ResponseMessage :=
  completed.map (handleOpenDialog showOpenDialog)

/-- A message sent on a `webContents` channel of a target window. -/
structure SentMessage (α : Type) where
  targetWindow : Nat
  channel : String
  payload : α
  deriving DecidableEq, Repr

/-- Body of one accumulated `container-stopped-event` listener: forward the
received value verbatim to the `webContents` of the window the listener
closed over; a message is emitted only when that window is still alive. -/
def containerListenerBody {α : Type} (windows : List Window) (payload : α)
    (wid : Nat) : Option (SentMessage α) :=
  match windows.find? (fun w => w.id == wid) with
  | some w =>
    if w.destroyed then none
    else some { targetWindow := wid, channel := "container-stopped-event", payload := payload }
  | none => none

/-- Deliver an inbound `container-stopped-event` message: every accumulated
listener runs in registration order, each forwarding the received value to
the window it closed over. -/
def dispatchContainerStopped (s : AppState) (payload : α) : List (SentMessage α) :=
  s.ipcHandlers.filterMap (containerListenerBody s.windows payload)

/-! ### Basic lemmas about single-window operations -/

theorem activateWindow_destroyed (w : Window) :
    (activateWindow w).destroyed = w.destroyed := by
  unfold activateWindow Window.isMinimized Window.isVisible Window.restore Window.showWin
    Window.focus
  cases hm : w.minimized <;> cases hv : w.visible <;> simp_all

theorem activateWindow_id (w : Window) : (activateWindow w).id = w.id := by
  unfold activateWindow Window.isMinimized Window.isVisible Window.restore Window.showWin
    Window.focus
  cases hm : w.minimized <;> cases hv : w.visible <;> simp_all

theorem activateWindow_spec (w : Window) :
    (activateWindow w).minimized = false ∧ (activateWindow w).visible = true ∧
      (activateWindow w).focused = true := by
  unfold activateWindow Window.isMinimized Window.isVisible Window.restore Window.showWin
    Window.focus
  cases hm : w.minimized <;> cases hv : w.visible <;> simp_all

theorem activateWindow_fixed (w : Window) (hv : w.visible = true) (hf : w.focused = true)
    (hm : w.minimized = false) : activateWindow w = w := by
  unfold activateWindow Window.isMinimized Window.isVisible Window.showWin Window.focus
  simp [hv, hm]
  cases w
  simp_all

theorem handleClose_destroyed (p : Platform) (w : Window) (dock : Bool) :
    (handleClose p w dock).window.destroyed = w.destroyed := by
  unfold handleClose Window.minimize Window.hide
  cases p <;> simp [isLinux, isMac]

theorem handleClose_id (p : Platform) (w : Window) (dock : Bool) :
    (handleClose p w dock).window.id = w.id := by
  unfold handleClose Window.minimize Window.hide
  cases p <;> simp [isLinux, isMac]

theorem handleClose_prevented (p : Platform) (w : Window) (dock : Bool) :
    (handleClose p w dock).preventedDefault = true := by
  unfold handleClose
  cases p <;> simp [isLinux, isMac]

/-! ### Lemmas about the window-list transformers -/

theorem activateFirst_countND (l : List Window) :
    ((activateFirst l).filter (fun w => !w.destroyed)).length =
      (l.filter (fun w => !w.destroyed)).length := by
  induction l with
  | nil => rfl
  | cons w ws ih =>
    by_cases h : w.destroyed = false
    · simp [activateFirst, h, List.filter_cons, activateWindow_destroyed]
    · simp only [Bool.not_eq_false] at h
      simp [activateFirst, h, List.filter_cons, ih]

theorem activateFirst_ids (l : List Window) :
    (activateFirst l).map Window.id = l.map Window.id := by
  induction l with
  | nil => rfl
  | cons w ws ih =>
    by_cases h : w.destroyed = false
    · simp [activateFirst, h, activateWindow_id]
    · simp only [Bool.not_eq_false] at h
      simp [activateFirst, h, ih]

theorem activateFirst_destroyedCount (l : List Window) :
    ((activateFirst l).filter (fun w => w.destroyed)).length =
      (l.filter (fun w => w.destroyed)).length := by
  induction l with
  | nil => rfl
  | cons w ws ih =>
    by_cases h : w.destroyed = false
    · simp [activateFirst, h, List.filter_cons, activateWindow_destroyed]
    · simp only [Bool.not_eq_false] at h
      simp [activateFirst, h, List.filter_cons, ih]

theorem activateFirst_find? (l : List Window) (w : Window)
    (h : l.find? (fun w => !w.destroyed) = some w) :
    (activateFirst l).find? (fun w => !w.destroyed) = some (activateWindow w) := by
  induction l with
  | nil => simp at h
  | cons w1 ws ih =>
    by_cases h1 : w1.destroyed = false
    · rw [List.find?_cons] at h
      simp [h1] at h
      subst h
      simp [activateFirst, h1, List.find?_cons, activateWindow_destroyed]
    · simp only [Bool.not_eq_false] at h1
      rw [List.find?_cons] at h
      simp [h1] at h
      simp [activateFirst, h1, List.find?_cons, ih h]

theorem activateFirst_eq_self (l : List Window) (w : Window)
    (h : l.find? (fun w => !w.destroyed) = some w) (hfix : activateWindow w = w) :
    activateFirst l = l := by
  induction l with
  | nil => simp at h
  | cons w1 ws ih =>
    by_cases h1 : w1.destroyed = false
    · rw [List.find?_cons] at h
      simp [h1] at h
      subst h
      simp [activateFirst, h1, hfix]
    · simp only [Bool.not_eq_false] at h1
      rw [List.find?_cons] at h
      simp [h1] at h
      simp [activateFirst, h1, ih h]

theorem activateFirst_append_all_destroyed (l : List Window) (w0 : Window)
    (hall : ∀ w ∈ l, w.destroyed = true) (h0 : w0.destroyed = false) :
    activateFirst (l ++ [w0]) = l ++ [activateWindow w0] := by
  induction l with
  | nil => simp [activateFirst, h0]
  | cons w1 ws ih =>
    have h1 : w1.destroyed = true := hall w1 (by simp)
    simp [activateFirst, h1, ih (fun w hw => hall w (by simp [hw]))]

theorem closeFirst_countND (p : Platform) (wid : Nat) (dock : Bool) (l : List Window) :
    (((closeFirst p wid dock l).1).filter (fun w => !w.destroyed)).length =
      (l.filter (fun w => !w.destroyed)).length := by
  induction l with
  | nil => rfl
  | cons w ws ih =>
    by_cases h : (w.id == wid && !w.destroyed) = true
    · simp only [closeFirst, h, if_true, List.filter_cons, handleClose_destroyed]
      split <;> simp
    · simp only [closeFirst, h, if_false, Bool.false_eq_true, if_neg, List.filter_cons]
      split <;> simp [ih]

theorem closeFirst_destroyedCount (p : Platform) (wid : Nat) (dock : Bool) (l : List Window) :
    (((closeFirst p wid dock l).1).filter (fun w => w.destroyed)).length =
      (l.filter (fun w => w.destroyed)).length := by
  induction l with
  | nil => rfl
  | cons w ws ih =>
    by_cases h : (w.id == wid && !w.destroyed) = true
    · simp only [closeFirst, h, if_true, List.filter_cons, handleClose_destroyed]
      split <;> simp
    · simp only [closeFirst, h, if_false, Bool.false_eq_true, if_neg, List.filter_cons]
      split <;> simp [ih]

theorem closeFirst_ids (p : Platform) (wid : Nat) (dock : Bool) (l : List Window) :
    ((closeFirst p wid dock l).1).map Window.id = l.map Window.id := by
  induction l with
  | nil => rfl
  | cons w ws ih =>
    by_cases h : (w.id == wid && !w.destroyed) = true
    · simp [closeFirst, h, handleClose_id]
    · simp [closeFirst, h, ih]

theorem find?_append_some {α : Type} {p : α → Bool} {l1 l2 : List α} {x : α}
    (h : l1.find? p = some x) : (l1 ++ l2).find? p = some x := by
  rw [List.find?_append, h]
  rfl

theorem find?_append_none {α : Type} {p : α → Bool} {l1 l2 : List α}
    (h : l1.find? p = none) : (l1 ++ l2).find? p = l2.find? p := by
  rw [List.find?_append, h]
  rfl

/-! ### Step invariants -/

theorem contains_iff_mem (l : List Nat) (x : Nat) : l.contains x = true ↔ x ∈ l := by
  simp [List.contains, List.elem_iff]

theorem find?_none_countND (l : List Window)
    (h : l.find? (fun w => !w.destroyed) = none) :
    (l.filter (fun w => !w.destroyed)).length = 0 := by
  rw [List.find?_eq_none] at h
  have : l.filter (fun w => !w.destroyed) = [] := List.filter_eq_nil_iff.mpr h
  simp [this]

theorem quitMap_countND_le (q : List Nat) (l : List Window) :
    ((l.map (fun w => if q.contains w.id then w.destroy else w)).filter
        (fun w => !w.destroyed)).length ≤ (l.filter (fun w => !w.destroyed)).length := by
  induction l with
  | nil => simp
  | cons w ws ih =>
    by_cases hq : q.contains w.id = true
    · simp only [List.map_cons, hq, if_true, List.filter_cons, Window.destroy]
      simp only [Bool.not_true, Bool.false_eq_true, if_false]
      split
      · exact le_trans ih (Nat.le_succ _)
      · exact ih
    · simp only [List.map_cons, hq, Bool.false_eq_true, if_false, if_neg, List.filter_cons]
      split
      · simpa using ih
      · exact ih

theorem quitMap_ids (q : List Nat) (l : List Window) :
    (l.map (fun w => if q.contains w.id then w.destroy else w)).map Window.id =
      l.map Window.id := by
  rw [List.map_map]
  apply List.map_congr_left
  intro w _
  by_cases hq : w.id ∈ q <;> simp [hq, Window.destroy]

theorem step_nonDestroyedCount_le (p : Platform) (s : AppState) (e : Event)
    (h : nonDestroyedCount s ≤ 1) : nonDestroyedCount (step p s e) ≤ 1 := by
  cases e with
  | activate =>
    simp only [step, restoreOrCreateWindow]
    cases hf : s.windows.find? (fun w => !w.destroyed) with
    | some w => simpa [nonDestroyedCount, activateFirst_countND] using h
    | none =>
      simp [nonDestroyedCount, createWindow, activateFirst_countND, List.filter_append,
        find?_none_countND s.windows hf, newWindow]
  | closeRequest wid =>
    simpa [step, nonDestroyedCount, closeFirst_countND] using h
  | beforeQuit =>
    simp only [step, nonDestroyedCount] at h ⊢
    exact le_trans (quitMap_countND_le _ _) h

theorem run_nonDestroyedCount (p : Platform) (evs : List Event) :
    nonDestroyedCount (run p evs) ≤ 1 := by
  rw [run]
  have : ∀ s, nonDestroyedCount s ≤ 1 → nonDestroyedCount (evs.foldl (step p) s) ≤ 1 := by
    induction evs with
    | nil => intro s h; exact h
    | cons e evs ih =>
      intro s h
      exact ih _ (step_nonDestroyedCount_le p s e h)
  exact this AppState.init (by decide)

/-- Every window ever constructed has a matching accumulated before-quit
handler. -/
def QuitInv (s : AppState) : Prop :=
  ∀ w ∈ s.windows, s.quitHandlers.contains w.id = true

theorem quitInv_of_ids (q : List Nat) (l l2 : List Window)
    (hids : l2.map Window.id = l.map Window.id)
    (h : ∀ w ∈ l, q.contains w.id = true) :
    ∀ w ∈ l2, q.contains w.id = true := by
  intro w hw
  have hm : w.id ∈ l2.map Window.id := List.mem_map_of_mem _ hw
  rw [hids] at hm
  rcases List.mem_map.mp hm with ⟨w0, hw0, hid⟩
  rw [← hid]
  exact h w0 hw0

theorem contains_append_left (q : List Nat) (x y : Nat) (h : q.contains x = true) :
    (q ++ [y]).contains x = true := by
  rw [contains_iff_mem] at h ⊢
  exact List.mem_append_left _ h

theorem step_quitInv (p : Platform) (s : AppState) (e : Event) (h : QuitInv s) :
    QuitInv (step p s e) := by
  cases e with
  | activate =>
    simp only [step, restoreOrCreateWindow]
    cases hf : s.windows.find? (fun w => !w.destroyed) with
    | some w =>
      exact quitInv_of_ids _ _ _ (activateFirst_ids s.windows) h
    | none =>
      simp only [createWindow, newWindow]
      apply quitInv_of_ids (s.quitHandlers ++ [s.nextId]) (s.windows ++ [newWindow s.nextId])
      · rw [activateFirst_ids]
        rfl
      · intro w hw
        rcases List.mem_append.mp hw with hw | hw
        · exact contains_append_left _ _ _ (h w hw)
        · simp at hw
          subst hw
          rw [contains_iff_mem]
          simp [newWindow]
  | closeRequest wid =>
    exact quitInv_of_ids _ _ _ (closeFirst_ids p wid s.dockVisible s.windows) h
  | beforeQuit =>
    exact quitInv_of_ids _ _ _ (quitMap_ids s.quitHandlers s.windows) h

theorem run_quitInv (p : Platform) (evs : List Event) : QuitInv (run p evs) := by
  rw [run]
  have : ∀ s, QuitInv s → QuitInv (evs.foldl (step p) s) := by
    induction evs with
    | nil => intro s h; exact h
    | cons e evs ih =>
      intro s h
      exact ih _ (step_quitInv p s e h)
  exact this AppState.init (by intro w hw; simp [AppState.init] at hw)

theorem quit_destroys_all (p : Platform) (s : AppState) (h : QuitInv s) :
    ∀ w ∈ (step p s .beforeQuit).windows, w.destroyed = true := by
  intro w hw
  simp only [step] at hw
  rcases List.mem_map.mp hw with ⟨w0, hw0, rfl⟩
  rw [h w0 hw0]
  simp [Window.destroy]

theorem step_destroyedCount_eq (p : Platform) (s : AppState) (e : Event)
    (he : e ≠ .beforeQuit) :
    (((step p s e).windows.filter (fun w => w.destroyed)).length =
      (s.windows.filter (fun w => w.destroyed)).length) := by
  cases e with
  | activate =>
    simp only [step, restoreOrCreateWindow]
    cases hf : s.windows.find? (fun w => !w.destroyed) with
    | some w => simp [activateFirst_destroyedCount]
    | none =>
      simp [createWindow, activateFirst_destroyedCount, List.filter_append, newWindow]
  | closeRequest wid => simp [step, closeFirst_destroyedCount]
  | beforeQuit => exact absurd rfl he

theorem step_ipcHandlers_extends (p : Platform) (s : AppState) (e : Event) :
    ∃ tail, (step p s e).ipcHandlers = s.ipcHandlers ++ tail := by
  cases e with
  | activate =>
    simp only [step, restoreOrCreateWindow]
    cases hf : s.windows.find? (fun w => !w.destroyed) with
    | some w => exact ⟨[], by simp⟩
    | none => exact ⟨[s.nextId], by simp [createWindow, newWindow]⟩
  | closeRequest wid => exact ⟨[], by simp [step]⟩
  | beforeQuit => exact ⟨[], by simp [step]⟩

theorem step_handlerCount (p : Platform) (s : AppState) (e : Event)
    (h : s.ipcHandlers.length = s.nextId) :
    (step p s e).ipcHandlers.length = (step p s e).nextId := by
  cases e with
  | activate =>
    simp only [step, restoreOrCreateWindow]
    cases hf : s.windows.find? (fun w => !w.destroyed) with
    | some w => simpa using h
    | none => simp [createWindow, newWindow, h]
  | closeRequest wid => simpa [step] using h
  | beforeQuit => simpa [step] using h

theorem run_handlerCount (p : Platform) (evs : List Event) :
    (run p evs).ipcHandlers.length = (run p evs).nextId := by
  rw [run]
  have : ∀ s, s.ipcHandlers.length = s.nextId →
      (evs.foldl (step p) s).ipcHandlers.length = (evs.foldl (step p) s).nextId := by
    induction evs with
    | nil => intro s h; exact h
    | cons e evs ih =>
      intro s h
      exact ih _ (step_handlerCount p s e h)
  exact this AppState.init rfl

/-! ### Destroy-and-reconstruct cycles -/

/-- The window an activate/quit cycle leaves behind: activated, then
destroyed by its before-quit handler. -/
def deadWin (i : Nat) : Window :=
  { id := i, destroyed := true, visible := true, minimized := false, focused := true }

/-- The live window right after an activate. -/
def liveWin (i : Nat) : Window :=
  { id := i, destroyed := false, visible := true, minimized := false, focused := true }

/-- The state after `k` complete activate/quit cycles. -/
def deadState (k : Nat) : AppState :=
  { windows := (List.range k).map deadWin
    nextId := k
    ipcHandlers := List.range k
    quitHandlers := List.range k
    dockVisible := true }

/-- The state after `k` complete activate/quit cycles and one final activate. -/
def aliveState (k : Nat) : AppState :=
  { windows := (List.range k).map deadWin ++ [liveWin k]
    nextId := k + 1
    ipcHandlers := List.range (k + 1)
    quitHandlers := List.range (k + 1)
    dockVisible := true }

/-- `n` destroy-and-reconstruct cycles followed by a final activate: the
window ends up destroyed and reconstructed `n` times, with one live window. -/
def cycleTrace (n : Nat) : List Event :=
  (List.replicate n [Event.activate, Event.beforeQuit]).flatten ++ [Event.activate]

theorem find?_dead_none (k wid : Nat) (hw : k ≤ wid) :
    ((List.range k).map deadWin).find? (fun w => w.id == wid) = none := by
  rw [List.find?_eq_none]
  intro x hx
  rcases List.mem_map.mp hx with ⟨i, hi, rfl⟩
  have : i < k := List.mem_range.mp hi
  simp [deadWin]
  omega

theorem find?_dead_some (n wid : Nat) (h : wid < n) :
    ((List.range n).map deadWin).find? (fun w => w.id == wid) = some (deadWin wid) := by
  induction n with
  | zero => omega
  | succ n ih =>
    rw [List.range_succ, List.map_append]
    by_cases hw : wid < n
    · exact find?_append_some (ih hw)
    · have hwn : wid = n := by omega
      subst hwn
      rw [find?_append_none (find?_dead_none wid wid (le_refl _))]
      simp [deadWin]

theorem step_activate_dead (p : Platform) (k : Nat) :
    step p (deadState k) .activate = aliveState k := by
  have hf : ((List.range k).map deadWin).find? (fun w => !w.destroyed) = none := by
    rw [List.find?_eq_none]
    intro x hx
    rcases List.mem_map.mp hx with ⟨i, _, rfl⟩
    simp [deadWin]
  have hall : ∀ w ∈ (List.range k).map deadWin, w.destroyed = true := by
    intro w hw
    rcases List.mem_map.mp hw with ⟨i, _, rfl⟩
    rfl
  simp only [step, restoreOrCreateWindow, deadState, hf, createWindow, newWindow]
  rw [activateFirst_append_all_destroyed _ _ hall rfl]
  simp [aliveState, List.range_succ]
  rfl

theorem step_quit_alive (p : Platform) (k : Nat) :
    step p (aliveState k) .beforeQuit = deadState (k + 1) := by
  have hc : ∀ i, i < k + 1 → (List.range (k + 1)).contains i = true := by
    intro i hi
    rw [contains_iff_mem, List.mem_range]
    exact hi
  have hw : (List.map deadWin (List.range k) ++ [liveWin k]).map
      (fun w => if (List.range (k + 1)).contains w.id then w.destroy else w) =
        List.map deadWin (List.range (k + 1)) := by
    rw [List.map_append, List.range_succ, List.map_append]
    congr 1
    · rw [List.map_map]
      apply List.map_congr_left
      intro i hi
      have hik : i < k := List.mem_range.mp hi
      simp [Function.comp, deadWin, hc i (by omega), Window.destroy]
    · simp [liveWin, hc k (by omega), Window.destroy, deadWin]
  simp only [step]
  rw [show (aliveState k).windows = List.map deadWin (List.range k) ++ [liveWin k] from rfl,
    show (aliveState k).quitHandlers = List.range (k + 1) from rfl, hw]
  rfl

theorem foldl_cycleTrace (p : Platform) :
    ∀ n k, (cycleTrace n).foldl (step p) (deadState k) = aliveState (n + k) := by
  intro n
  induction n with
  | zero =>
    intro k
    simp only [cycleTrace, List.replicate, List.flatten, List.nil_append, List.foldl_cons,
      List.foldl_nil, Nat.zero_add]
    exact step_activate_dead p k
  | succ n ih =>
    intro k
    have hsplit : cycleTrace (n + 1) =
        Event.activate :: Event.beforeQuit :: cycleTrace n := by
      simp [cycleTrace, List.replicate_succ]
    rw [hsplit]
    simp only [List.foldl_cons]
    rw [step_activate_dead p k, step_quit_alive p k, ih (k + 1)]
    congr 1
    omega

theorem run_cycleTrace (p : Platform) (n : Nat) :
    run p (cycleTrace n) = aliveState n := by
  have h0 : AppState.init = deadState 0 := by
    simp [AppState.init, deadState]
  rw [run, h0, foldl_cycleTrace p n 0]
  congr 1

theorem dispatch_aliveState {α : Type} (n : Nat) (payload : α) :
    dispatchContainerStopped (aliveState n) payload =
      [{ targetWindow := n, channel := "container-stopped-event", payload := payload }] := by
  have hbody_dead : ∀ wid, wid < n →
      containerListenerBody (aliveState n).windows payload wid = none := by
    intro wid h
    unfold containerListenerBody
    rw [show (aliveState n).windows = (List.range n).map deadWin ++ [liveWin n] from rfl,
      find?_append_some (find?_dead_some n wid h)]
    rfl
  have hbody_last : containerListenerBody (aliveState n).windows payload n =
      some { targetWindow := n, channel := "container-stopped-event", payload := payload } := by
    unfold containerListenerBody
    rw [show (aliveState n).windows = (List.range n).map deadWin ++ [liveWin n] from rfl,
      find?_append_none (find?_dead_none n n (le_refl n))]
    simp [liveWin]
  unfold dispatchContainerStopped
  rw [show (aliveState n).ipcHandlers = List.range (n + 1) from rfl, List.range_succ,
    List.filterMap_append,
    List.filterMap_eq_nil_iff.mpr (fun wid hwid => hbody_dead wid (List.mem_range.mp hwid))]
  simp [hbody_last]

/-! ### Characterizing restoreOrCreateWindow -/

theorem activateFirst_length (l : List Window) :
    (activateFirst l).length = l.length := by
  induction l with
  | nil => rfl
  | cons w ws ih =>
    by_cases h : w.destroyed = false
    · simp [activateFirst, h]
    · simp only [Bool.not_eq_false] at h
      simp [activateFirst, h, ih]

theorem restoreOrCreateWindow_eq_some (s : AppState) (w : Window)
    (hf : s.windows.find? (fun w => !w.destroyed) = some w) :
    restoreOrCreateWindow s = { s with windows := activateFirst s.windows } := by
  unfold restoreOrCreateWindow
  rw [hf]

theorem restoreOrCreateWindow_eq_none (s : AppState)
    (hf : s.windows.find? (fun w => !w.destroyed) = none) :
    restoreOrCreateWindow s =
      { createWindow s with windows := activateFirst ((createWindow s).windows) } := by
  unfold restoreOrCreateWindow
  rw [hf]

theorem restoreOrCreate_activated (s : AppState) :
    ∃ w, (restoreOrCreateWindow s).windows.find? (fun w => !w.destroyed) = some w ∧
      w.minimized = false ∧ w.visible = true ∧ w.focused = true := by
  cases hf : s.windows.find? (fun w => !w.destroyed) with
  | some w =>
    rw [restoreOrCreateWindow_eq_some s w hf]
    exact ⟨activateWindow w, activateFirst_find? s.windows w hf,
      (activateWindow_spec w).1, (activateWindow_spec w).2.1, (activateWindow_spec w).2.2⟩
  | none =>
    rw [restoreOrCreateWindow_eq_none s hf]
    have hall : ∀ w ∈ s.windows, w.destroyed = true := by
      intro w hw
      have := List.find?_eq_none.mp hf w hw
      simpa using this
    refine ⟨activateWindow (newWindow s.nextId), ?_, (activateWindow_spec _).1,
      (activateWindow_spec _).2.1, (activateWindow_spec _).2.2⟩
    show (activateFirst ((createWindow s).windows)).find? (fun w => !w.destroyed) =
      some (activateWindow (newWindow s.nextId))
    have hcw : (createWindow s).windows = s.windows ++ [newWindow s.nextId] := rfl
    rw [hcw, activateFirst_append_all_destroyed _ _ hall rfl, find?_append_none hf]
    simp [activateWindow_destroyed, newWindow]

theorem restoreOrCreate_idem (s : AppState) (w : Window)
    (hf : s.windows.find? (fun w => !w.destroyed) = some w)
    (hv : w.visible = true) (hfoc : w.focused = true) (hm : w.minimized = false) :
    restoreOrCreateWindow s = s := by
  rw [restoreOrCreateWindow_eq_some s w hf,
    activateFirst_eq_self s.windows w hf (activateWindow_fixed w hv hfoc hm)]

/-! ### Claim theorems -/

/-- Claim C1: for every sequence of events (in particular every sequence of
activate calls) at most one non-destroyed window exists at any time, and
restoreOrCreateWindow only constructs a new window when its search of the
existing windows finds no non-destroyed one: when the search succeeds the
state only has its found window activated, and when it fails exactly one
window is appended and the fresh-id counter advances. -/
theorem C1_singleton_window :
    (∀ (p : Platform) (evs : List Event), nonDestroyedCount (run p evs) ≤ 1) ∧
    (∀ s : AppState,
      ((s.windows.find? (fun w => !w.destroyed)).isSome →
        restoreOrCreateWindow s = { s with windows := activateFirst s.windows }) ∧
      (s.windows.find? (fun w => !w.destroyed) = none →
        (restoreOrCreateWindow s).windows.length = s.windows.length + 1 ∧
          (restoreOrCreateWindow s).nextId = s.nextId + 1)) := by
  refine ⟨run_nonDestroyedCount, fun s => ⟨?_, ?_⟩⟩
  · intro hsome
    rcases Option.isSome_iff_exists.mp hsome with ⟨w, hw⟩
    exact restoreOrCreateWindow_eq_some s w hw
  · intro hnone
    rw [restoreOrCreateWindow_eq_none s hnone]
    constructor
    · show (activateFirst ((createWindow s).windows)).length = s.windows.length + 1
      rw [activateFirst_length]
      show (s.windows ++ [newWindow s.nextId]).length = s.windows.length + 1
      simp
    · rfl

/-- Witness for C1 at concrete inputs: a four-event trace keeps the
non-destroyed count at most one, and activating the empty initial state
constructs exactly one window. -/
theorem C1_singleton_window_witness :
    nonDestroyedCount (run .linux [.activate, .activate, .beforeQuit, .activate]) ≤ 1 ∧
    (restoreOrCreateWindow AppState.init).windows.length =
      AppState.init.windows.length + 1 :=
  ⟨C1_singleton_window.1 .linux [.activate, .activate, .beforeQuit, .activate],
    ((C1_singleton_window.2 AppState.init).2 rfl).1⟩

/-- Claim C2: the close handler always suppresses the default close action
and never changes the destroyed flag; no event other than before-quit
changes the number of destroyed windows; and after a before-quit event every
window is destroyed (the accumulated quit handlers are the only transition
into the destroyed state). -/
theorem C2_close_never_destroys :
    (∀ (p : Platform) (w : Window) (dock : Bool),
      (handleClose p w dock).preventedDefault = true ∧
        (handleClose p w dock).window.destroyed = w.destroyed) ∧
    (∀ (p : Platform) (s : AppState) (e : Event), e ≠ .beforeQuit →
      ((step p s e).windows.filter (fun w => w.destroyed)).length =
        (s.windows.filter (fun w => w.destroyed)).length) ∧
    (∀ (p : Platform) (evs : List Event) (w : Window),
      w ∈ (run p (evs ++ [.beforeQuit])).windows → w.destroyed = true) := by
  refine ⟨fun p w dock => ⟨handleClose_prevented p w dock, handleClose_destroyed p w dock⟩,
    fun p s e he => step_destroyedCount_eq p s e he, ?_⟩
  intro p evs w hw
  simp only [run, List.foldl_append, List.foldl_cons, List.foldl_nil] at hw
  exact quit_destroys_all p (run p evs) (run_quitInv p evs) w hw

/-- Witness for C2 at concrete inputs: the Mac close handler suppresses the
default, a close request leaves the destroyed count unchanged, and the
window left after an activate followed by before-quit is destroyed. -/
theorem C2_close_never_destroys_witness :
    (handleClose .mac (liveWin 0) true).preventedDefault = true ∧
    ((step .linux (run .linux [.activate]) (.closeRequest 0)).windows.filter
        (fun w => w.destroyed)).length =
      ((run .linux [.activate]).windows.filter (fun w => w.destroyed)).length ∧
    (deadWin 0).destroyed = true :=
  ⟨(C2_close_never_destroys.1 .mac (liveWin 0) true).1,
    C2_close_never_destroys.2.1 .linux (run .linux [.activate]) (.closeRequest 0) (by decide),
    C2_close_never_destroys.2.2 .linux [.activate] (deadWin 0) (by decide)⟩

/-- Claim C3: given two in-flight open-file dialog requests with distinct
dialog ids, any interleaving of their completions yields exactly one
response carrying each request's own dialogId, and every response goes out
on the dialog response channel. -/
theorem C3_dialog_correlation (f : DialogRequest → OpenDialogReturnValue)
    (a b : DialogRequest) (out : List ResponseMessage)
    (hab : a.dialogId ≠ b.dialogId)
    (hperm : out.Perm (responsesFor f [a, b])) :
    (out.filter (fun m => m.dialogId == a.dialogId)).length = 1 ∧
    (out.filter (fun m => m.dialogId == b.dialogId)).length = 1 ∧
    ∀ m ∈ out, m.channel = "dialog:open-file-or-folder-response" := by
  have hda := (hperm.filter (fun m => m.dialogId == a.dialogId)).length_eq
  have hdb := (hperm.filter (fun m => m.dialogId == b.dialogId)).length_eq
  refine ⟨?_, ?_, ?_⟩
  · rw [hda]
    simp [responsesFor, handleOpenDialog, List.filter_cons, hab, Ne.symm hab]
  · rw [hdb]
    simp [responsesFor, handleOpenDialog, List.filter_cons, hab, Ne.symm hab]
  · intro m hm
    have hmem : m ∈ responsesFor f [a, b] := hperm.mem_iff.mp hm
    simp only [responsesFor, handleOpenDialog, List.map_cons, List.map_nil,
      List.mem_cons, List.not_mem_nil, or_false] at hmem
    rcases hmem with h | h <;> subst h <;> rfl

/-- The responses of requests A and B completing in swapped order. -/
def swappedResponses : List ResponseMessage :=
  [{ channel := "dialog:open-file-or-folder-response", dialogId := "B",
     response := { canceled := true, filePaths := [] } },
   { channel := "dialog:open-file-or-folder-response", dialogId := "A",
     response := { canceled := true, filePaths := [] } }]

/-- Witness for C3: requests with dialogIds A and B whose responses complete
in swapped order each still receive exactly one response with their own id. -/
theorem C3_dialog_correlation_witness :
    (swappedResponses.filter (fun m => m.dialogId == "A")).length = 1 ∧
    (swappedResponses.filter (fun m => m.dialogId == "B")).length = 1 ∧
    ∀ m ∈ swappedResponses, m.channel = "dialog:open-file-or-folder-response" :=
  C3_dialog_correlation (fun _ => { canceled := true, filePaths := [] })
    { dialogId := "A", message := "pick" } { dialogId := "B", message := "pick" }
    swappedResponses (by decide) (by decide)

/-- Claim C4: every message emitted by delivering an inbound
container-stopped-event carries the received value verbatim, on the
container-stopped-event channel. -/
theorem C4_forward_verbatim {α : Type} (s : AppState) (payload : α)
    (m : SentMessage α) (hm : m ∈ dispatchContainerStopped s payload) :
    m.payload = payload ∧ m.channel = "container-stopped-event" := by
  rcases List.mem_filterMap.mp hm with ⟨wid, _, hbody⟩
  unfold containerListenerBody at hbody
  cases hfind : s.windows.find? (fun w => w.id == wid) with
  | none =>
    rw [hfind] at hbody
    simp at hbody
  | some w =>
    rw [hfind] at hbody
    by_cases hd : w.destroyed = true
    · simp [hd] at hbody
    · simp [hd] at hbody
      rw [← hbody]
      exact ⟨rfl, rfl⟩

/-- Witness for C4: the one message emitted after a single activate carries
the payload unchanged. -/
theorem C4_forward_verbatim_witness :
    ({ targetWindow := 0, channel := "container-stopped-event", payload := "ping" }
        : SentMessage String).payload = "ping" ∧
    ({ targetWindow := 0, channel := "container-stopped-event", payload := "ping" }
        : SentMessage String).channel = "container-stopped-event" :=
  C4_forward_verbatim (run .linux [.activate]) "ping"
    { targetWindow := 0, channel := "container-stopped-event", payload := "ping" }
    (by decide)

/-- Claim C5: the loaded content source is the dev-server URL exactly when
the development flag is set and a dev-server URL is defined; in every other
case it is the fixed production file location resolved from
'../renderer/dist/index.html' against the file URL of the code directory. -/
theorem C5_content_source (dev : Bool) (v : Option String) (u dirname : String) :
    pageUrl true (some u) dirname = u ∧
    pageUrl false v dirname = prodPageUrl dirname ∧
    pageUrl dev none dirname = prodPageUrl dirname ∧
    prodPageUrl dirname = urlResolve "../renderer/dist/index.html" ("file://" ++ dirname) := by
  refine ⟨rfl, ?_, ?_, rfl⟩
  · cases v <;> rfl
  · cases dev <;> rfl

/-- Claim C6: on every platform the final window options force
titleBarStyle 'hidden' (overriding the 'hiddenInset' first set on Mac), and
the frame is removed exactly on non-Mac platforms. -/
theorem C6_chrome_override (dirname : String) (p : Platform) :
    (browserWindowConstructorOptions dirname p).titleBarStyle = .hidden ∧
    ((browserWindowConstructorOptions dirname p).frame = false ↔ p ≠ .mac) ∧
    (optionsAfterMacBranch dirname .mac).titleBarStyle = .hiddenInset := by
  cases p <;>
    simp [browserWindowConstructorOptions, optionsAfterMacBranch, isMac, initialOptions]

/-- Claim C7: a close request minimizes the window on Linux and hides it on
the other platforms, additionally hiding the dock icon on Mac and leaving
the dock untouched elsewhere. -/
theorem C7_close_visibility (w : Window) (dock : Bool) :
    (handleClose .linux w dock).window = w.minimize ∧
    (handleClose .linux w dock).dockVisible = dock ∧
    (handleClose .mac w dock).window = w.hide ∧
    (handleClose .mac w dock).dockVisible = false ∧
    (handleClose .windows w dock).window = w.hide ∧
    (handleClose .windows w dock).dockVisible = dock :=
  ⟨rfl, rfl, rfl, rfl, rfl, rfl⟩

/-- Claim C8: after restoreOrCreateWindow the (found or created) live window
is not minimized, is visible, and is focused. -/
theorem C8_activate_postcondition (s : AppState) :
    ∃ w, (restoreOrCreateWindow s).windows.find? (fun w => !w.destroyed) = some w ∧
      w.minimized = false ∧ w.visible = true ∧ w.focused = true :=
  restoreOrCreate_activated s

/-- Claim C9: activating a state whose live window is already visible,
focused and not minimized changes nothing: restoreOrCreateWindow is the
identity there. -/
theorem C9_activate_idempotent (s : AppState) (w : Window)
    (hf : s.windows.find? (fun w => !w.destroyed) = some w)
    (hv : w.visible = true) (hfoc : w.focused = true) (hm : w.minimized = false) :
    restoreOrCreateWindow s = s :=
  restoreOrCreate_idem s w hf hv hfoc hm

/-- Witness for C9: re-activating the state produced by one activate leaves
it unchanged. -/
theorem C9_activate_idempotent_witness :
    restoreOrCreateWindow (run .linux [.activate]) = run .linux [.activate] :=
  C9_activate_idempotent (run .linux [.activate]) (liveWin 0) (by decide) rfl rfl rfl

/-- Claim C10: the IPC listeners registered at window construction
accumulate on the process-global bus and are never removed: after any trace
the listener count equals the number of constructions, appending events only
extends the listener list, and after n destroy-and-reconstruct cycles plus a
final activate a single inbound container-stopped request runs all n + 1
accumulated listeners but emits exactly one message, to the sole surviving
window. -/
theorem C10_listener_accumulation :
    (∀ (p : Platform) (n : Nat) (payload : String),
      (run p (cycleTrace n)).ipcHandlers.length = n + 1 ∧
      dispatchContainerStopped (run p (cycleTrace n)) payload =
        [{ targetWindow := n, channel := "container-stopped-event", payload := payload }]) ∧
    (∀ (p : Platform) (evs : List Event) (e : Event),
      ∃ tail, (run p (evs ++ [e])).ipcHandlers = (run p evs).ipcHandlers ++ tail) ∧
    (∀ (p : Platform) (evs : List Event),
      (run p evs).ipcHandlers.length = (run p evs).nextId) := by
  refine ⟨?_, ?_, run_handlerCount⟩
  · intro p n payload
    rw [run_cycleTrace]
    exact ⟨by simp [aliveState], dispatch_aliveState n payload⟩
  · intro p evs e
    have h := step_ipcHandlers_extends p (run p evs) e
    simpa only [run, List.foldl_append, List.foldl_cons, List.foldl_nil] using h

end MainWindow
